import Mathlib

/-!
Verification development for the Sarus SSH hook (src/hooks/ssh/SshHook.cpp)
and the MPI hook shared-library picker (src/hooks/mpi/SharedLibrary.cpp).
The definitions below are shallow embeddings of the C++ sources; stateful
code is modelled by explicit state passing and event traces.
-/

/-! ## Shared-library picker (SharedLibrary.cpp) -/

/-- A shared library as represented in SharedLibrary.cpp: a linker name,
a real name (the linker name extended with the ABI string) and numeric
major/minor/patch ABI components. -/
structure SharedLibrary where
  linkerName : String
  realName : String
  major : Int
  minor : Int
  patch : Int
deriving DecidableEq

/-- First loop of SharedLibrary::pickNewestAbiCompatibleLibrary: scan the
candidates from the front; return the first candidate whose realName equals
the target realName (Sum.inl, the early return of the C++ loop), otherwise
the final value of the oldest pointer (Sum.inr). The oldest pointer is
updated to a candidate that is older-or-equal, unless that would move from
the target major to a strictly older major. -/
def findOldest (me : SharedLibrary) : List SharedLibrary → SharedLibrary → SharedLibrary ⊕ SharedLibrary
  | [], oldest => Sum.inr oldest
  | c :: rest, oldest =>
    if c.realName = me.realName then Sum.inl c
    else if c.major < oldest.major ∨ (c.major = oldest.major ∧ c.minor ≤ oldest.minor) then
      if oldest.major = me.major ∧ c.major < me.major then findOldest me rest oldest
      else findOldest me rest c
    else findOldest me rest oldest

/-- Second loop of SharedLibrary::pickNewestAbiCompatibleLibrary: starting
from the oldest candidate, move the best pointer to any candidate that is
at least as new as best and not newer than the target, refusing to
downgrade the patch level of a candidate carrying exactly the target
major and minor. -/
def findBest (me : SharedLibrary) : List SharedLibrary → SharedLibrary → SharedLibrary
  | [], best => best
  | c :: rest, best =>
    if (c.major > best.major ∨ (c.major = best.major ∧ c.minor ≥ best.minor)) ∧
        c.major ≤ me.major ∧ c.minor ≤ me.minor then
      if c.major = me.major ∧ c.minor = me.minor ∧ c.patch < best.patch then
        findBest me rest best
      else findBest me rest c
    else findBest me rest best

/-- SharedLibrary::pickNewestAbiCompatibleLibrary: error on an empty
candidate list; a single candidate is returned unconditionally; otherwise
run the two scanning loops with the oldest pointer initialised to the
first candidate. -/
def pickNewestAbiCompatibleLibrary (me : SharedLibrary) (candidates : List SharedLibrary) : Except String SharedLibrary :=
  match candidates with
  | [] => Except.error "pickNewestAbiCompatibleLibrary received no candidates to pick from"
  | [c] => Except.ok c
  | c0 :: c1 :: rest =>
    match findOldest me (c0 :: c1 :: rest) c0 with
    | Sum.inl exactMatch => Except.ok exactMatch
    | Sum.inr oldest => Except.ok (findBest me (c0 :: c1 :: rest) oldest)

lemma findOldest_of_exact (me : SharedLibrary) :
    ∀ (l : List SharedLibrary) (o : SharedLibrary),
      (∃ c ∈ l, c.realName = me.realName) →
      ∃ c, findOldest me l o = Sum.inl c ∧ c.realName = me.realName ∧ c ∈ l := by
  intro l
  induction l with
  | nil => intro o h; rcases h with ⟨c, hc, _⟩; cases hc
  | cons a rest ih =>
    intro o h
    by_cases ha : a.realName = me.realName
    · exact ⟨a, by simp [findOldest, ha], ha, List.mem_cons_self a rest⟩
    · have hrest : ∃ c ∈ rest, c.realName = me.realName := by
        rcases h with ⟨c, hc, hcr⟩
        rcases List.mem_cons.mp hc with hc | hc
        · exact absurd (hc ▸ hcr) ha
        · exact ⟨c, hc, hcr⟩
      simp only [findOldest, if_neg ha]
      by_cases h1 : a.major < o.major ∨ (a.major = o.major ∧ a.minor ≤ o.minor)
      · by_cases h2 : o.major = me.major ∧ a.major < me.major
        · rw [if_pos h1, if_pos h2]
          rcases ih o hrest with ⟨c, hc, hcr, hcm⟩
          exact ⟨c, hc, hcr, List.mem_cons_of_mem a hcm⟩
        · rw [if_pos h1, if_neg h2]
          rcases ih a hrest with ⟨c, hc, hcr, hcm⟩
          exact ⟨c, hc, hcr, List.mem_cons_of_mem a hcm⟩
      · rw [if_neg h1]
        rcases ih o hrest with ⟨c, hc, hcr, hcm⟩
        exact ⟨c, hc, hcr, List.mem_cons_of_mem a hcm⟩

lemma findOldest_of_no_exact (me : SharedLibrary) :
    ∀ (l : List SharedLibrary) (o : SharedLibrary),
      (∀ c ∈ l, c.realName ≠ me.realName) →
      ∃ old, findOldest me l o = Sum.inr old ∧ (old = o ∨ old ∈ l) := by
  intro l
  induction l with
  | nil => intro o _; exact ⟨o, rfl, Or.inl rfl⟩
  | cons a rest ih =>
    intro o h
    have ha : a.realName ≠ me.realName := h a (List.mem_cons_self a rest)
    have hrest : ∀ c ∈ rest, c.realName ≠ me.realName :=
      fun c hc => h c (List.mem_cons_of_mem a hc)
    simp only [findOldest, if_neg ha]
    by_cases h1 : a.major < o.major ∨ (a.major = o.major ∧ a.minor ≤ o.minor)
    · by_cases h2 : o.major = me.major ∧ a.major < me.major
      · rw [if_pos h1, if_pos h2]
        rcases ih o hrest with ⟨old, hold, hm⟩
        refine ⟨old, hold, ?_⟩
        rcases hm with hm | hm
        · exact Or.inl hm
        · exact Or.inr (List.mem_cons_of_mem a hm)
      · rw [if_pos h1, if_neg h2]
        rcases ih a hrest with ⟨old, hold, hm⟩
        refine ⟨old, hold, ?_⟩
        rcases hm with hm | hm
        · exact Or.inr (by rw [hm]; exact List.mem_cons_self a rest)
        · exact Or.inr (List.mem_cons_of_mem a hm)
    · rw [if_neg h1]
      rcases ih o hrest with ⟨old, hold, hm⟩
      refine ⟨old, hold, ?_⟩
      rcases hm with hm | hm
      · exact Or.inl hm
      · exact Or.inr (List.mem_cons_of_mem a hm)

lemma findBest_mem (me : SharedLibrary) :
    ∀ (l : List SharedLibrary) (b : SharedLibrary),
      findBest me l b = b ∨ findBest me l b ∈ l := by
  intro l
  induction l with
  | nil => intro b; exact Or.inl rfl
  | cons a rest ih =>
    intro b
    simp only [findBest]
    by_cases h1 : (a.major > b.major ∨ (a.major = b.major ∧ a.minor ≥ b.minor)) ∧
        a.major ≤ me.major ∧ a.minor ≤ me.minor
    · by_cases h2 : a.major = me.major ∧ a.minor = me.minor ∧ a.patch < b.patch
      · rw [if_pos h1, if_pos h2]
        rcases ih b with hm | hm
        · exact Or.inl hm
        · exact Or.inr (List.mem_cons_of_mem a hm)
      · rw [if_pos h1, if_neg h2]
        rcases ih a with hm | hm
        · exact Or.inr (by rw [hm]; exact List.mem_cons_self a rest)
        · exact Or.inr (List.mem_cons_of_mem a hm)
    · rw [if_neg h1]
      rcases ih b with hm | hm
      · exact Or.inl hm
      · exact Or.inr (List.mem_cons_of_mem a hm)

/-- C10: a single candidate is returned unconditionally, without any
compatibility check: whatever its linker name, major or minor, the picker
returns it. -/
theorem pickNewest_singleton_unconditional (me c : SharedLibrary) :
    pickNewestAbiCompatibleLibrary me [c] = Except.ok c := rfl

/-- C9 counterexample: with target ABI 2.0.0 and candidates listed as
1.9.0 then 2.5.0 (same linker name as the target), the picker returns the
1.9.0 library, a major downgrade, even though the 2.5.0 candidate carries
the target major. -/
theorem pickNewest_downgrades_major_despite_available :
    pickNewestAbiCompatibleLibrary
      ⟨"libfoo.so", "libfoo.so.2.0.0", 2, 0, 0⟩
      [⟨"libfoo.so", "libfoo.so.1.9.0", 1, 9, 0⟩,
       ⟨"libfoo.so", "libfoo.so.2.5.0", 2, 5, 0⟩] =
      Except.ok ⟨"libfoo.so", "libfoo.so.1.9.0", 1, 9, 0⟩ ∧
    (⟨"libfoo.so", "libfoo.so.1.9.0", 1, 9, 0⟩ : SharedLibrary).major ≠
      (⟨"libfoo.so", "libfoo.so.2.0.0", 2, 0, 0⟩ : SharedLibrary).major ∧
    (⟨"libfoo.so", "libfoo.so.2.5.0", 2, 5, 0⟩ : SharedLibrary) ∈
      [(⟨"libfoo.so", "libfoo.so.1.9.0", 1, 9, 0⟩ : SharedLibrary),
       ⟨"libfoo.so", "libfoo.so.2.5.0", 2, 5, 0⟩] ∧
    (⟨"libfoo.so", "libfoo.so.2.5.0", 2, 5, 0⟩ : SharedLibrary).major =
      (⟨"libfoo.so", "libfoo.so.2.0.0", 2, 0, 0⟩ : SharedLibrary).major := by
  refine ⟨rfl, by decide, by decide, by decide⟩

/-- C9 amended: for every non-empty candidate list the picker returns one
of the candidates, and whenever a candidate with the target realName is
present (an exact match) the returned candidate has the target realName.
The remaining clauses of the stated policy do not hold: the two-pass scan
is order sensitive and can select a candidate with a lower major than the
target even when a candidate with the target major is available. -/
theorem pickNewest_membership_and_exact_preference
    (me : SharedLibrary) (candidates : List SharedLibrary)
    (hne : candidates ≠ []) :
    (∃ c, pickNewestAbiCompatibleLibrary me candidates = Except.ok c ∧ c ∈ candidates) ∧
    ((∃ c ∈ candidates, c.realName = me.realName) →
      ∃ c, pickNewestAbiCompatibleLibrary me candidates = Except.ok c ∧
        c.realName = me.realName ∧ c ∈ candidates) := by
  match candidates with
  | [] => exact absurd rfl hne
  | [c] =>
    refine ⟨⟨c, rfl, List.mem_singleton_self c⟩, ?_⟩
    intro h
    rcases h with ⟨d, hd, hdr⟩
    have hdc : d = c := List.mem_singleton.mp hd
    exact ⟨c, rfl, hdc ▸ hdr, List.mem_singleton_self c⟩
  | c0 :: c1 :: rest =>
    by_cases hex : ∃ c ∈ c0 :: c1 :: rest, c.realName = me.realName
    · rcases findOldest_of_exact me (c0 :: c1 :: rest) c0 hex with ⟨c, hc, hcr, hcm⟩
      refine ⟨⟨c, ?_, hcm⟩, fun _ => ⟨c, ?_, hcr, hcm⟩⟩
      · simp only [pickNewestAbiCompatibleLibrary, hc]
      · simp only [pickNewestAbiCompatibleLibrary, hc]
    · have hno : ∀ c ∈ c0 :: c1 :: rest, c.realName ≠ me.realName := by
        intro c hc
        exact fun hcr => hex ⟨c, hc, hcr⟩
      rcases findOldest_of_no_exact me (c0 :: c1 :: rest) c0 hno with ⟨old, hold, holdm⟩
      have holdmem : old ∈ c0 :: c1 :: rest := by
        rcases holdm with h | h
        · exact h ▸ List.mem_cons_self c0 (c1 :: rest)
        · exact h
      have hbest : findBest me (c0 :: c1 :: rest) old ∈ c0 :: c1 :: rest := by
        rcases findBest_mem me (c0 :: c1 :: rest) old with h | h
        · rw [h]; exact holdmem
        · exact h
      refine ⟨⟨findBest me (c0 :: c1 :: rest) old, ?_, hbest⟩, fun h => absurd h hex⟩
      simp only [pickNewestAbiCompatibleLibrary, hold]

/-- Witness for the amended C9 theorem at a concrete input. -/
theorem pickNewest_membership_witness :
    ∃ c, pickNewestAbiCompatibleLibrary
        ⟨"libz.so", "libz.so.1.2.3", 1, 2, 3⟩
        [⟨"libz.so", "libz.so.1.2.0", 1, 2, 0⟩] = Except.ok c ∧
      c ∈ [(⟨"libz.so", "libz.so.1.2.0", 1, 2, 0⟩ : SharedLibrary)] :=
  (pickNewest_membership_and_exact_preference
    ⟨"libz.so", "libz.so.1.2.3", 1, 2, 3⟩
    [⟨"libz.so", "libz.so.1.2.0", 1, 2, 0⟩] (by decide)).1

/-! ## SshHook::startSshDaemon — sequence of operations (SshHook.cpp, lines 80-102) -/

/-- The operations invoked by SshHook::startSshDaemon, one constructor per
call in its body. -/
inductive HookStep
  | parseStateFromStdin
  | enterNamespaces
  | parseConfigJSONOfBundle
  | getUsername
  | getSshKeysDirInHost
  | getSshKeysDirInContainer
  | copyDropbearIntoContainer
  | setupSshKeysDirInContainer
  | copySshKeysIntoContainer
  | patchPasswdIfNecessary
  | createEnvironmentFile
  | createEtcProfileModule
  | startSshDaemonInContainer
  | createSshExecutableInContainer
deriving DecidableEq, BEq

/-- The exact order in which SshHook::startSshDaemon performs its
operations, transcribed from the body of the function. -/
def startSshDaemonSteps : List HookStep :=
  [HookStep.parseStateFromStdin,
   HookStep.enterNamespaces,
   HookStep.parseConfigJSONOfBundle,
   HookStep.getUsername,
   HookStep.getSshKeysDirInHost,
   HookStep.getSshKeysDirInContainer,
   HookStep.copyDropbearIntoContainer,
   HookStep.setupSshKeysDirInContainer,
   HookStep.copySshKeysIntoContainer,
   HookStep.patchPasswdIfNecessary,
   HookStep.createEnvironmentFile,
   HookStep.createEtcProfileModule,
   HookStep.startSshDaemonInContainer,
   HookStep.createSshExecutableInContainer]

/-- Position of a step in the startSshDaemon sequence. -/
def stepIdx (s : HookStep) : Nat :=
  startSshDaemonSteps.findIdx (fun t => t == s)

/-- C3 counterexample: the ssh shim (createSshExecutableInContainer,
§4.C step 9) is not written before the SSH daemon is launched
(startSshDaemonInContainer, §4.C step 10): in the code the daemon launch
comes first. -/
theorem sshShim_written_after_daemon :
    ¬ (stepIdx HookStep.createSshExecutableInContainer <
       stepIdx HookStep.startSshDaemonInContainer) := by decide

/-- C3 amended: the steps of §4.C execute in the mandated order except
that steps 9 and 10 are swapped: the daemon is launched first and the ssh
shim is written afterwards; no other step is reordered. -/
theorem startSshDaemon_step_order :
    stepIdx HookStep.enterNamespaces < stepIdx HookStep.getSshKeysDirInContainer ∧
    stepIdx HookStep.getSshKeysDirInContainer < stepIdx HookStep.copyDropbearIntoContainer ∧
    stepIdx HookStep.copyDropbearIntoContainer < stepIdx HookStep.setupSshKeysDirInContainer ∧
    stepIdx HookStep.setupSshKeysDirInContainer < stepIdx HookStep.copySshKeysIntoContainer ∧
    stepIdx HookStep.copySshKeysIntoContainer < stepIdx HookStep.patchPasswdIfNecessary ∧
    stepIdx HookStep.patchPasswdIfNecessary < stepIdx HookStep.createEnvironmentFile ∧
    stepIdx HookStep.createEnvironmentFile < stepIdx HookStep.createEtcProfileModule ∧
    stepIdx HookStep.createEtcProfileModule < stepIdx HookStep.startSshDaemonInContainer ∧
    stepIdx HookStep.startSshDaemonInContainer < stepIdx HookStep.createSshExecutableInContainer := by
  decide

/-- C4 counterexample: the bundle config.json is not parsed before
namespace entry: in the code enterNamespacesOfProcess is called first and
parseConfigJSONOfBundle (which derives rootfs path, uid and gid) second. -/
theorem configJSON_parsed_after_namespace_entry :
    ¬ (stepIdx HookStep.parseConfigJSONOfBundle < stepIdx HookStep.enterNamespaces) := by
  decide

/-- C4 amended: only the stdin state (bundle directory and container pid)
is read before namespace entry; the bundle config.json, from which the
rootfs path, uid, gid and log level are derived, is parsed after the
process has joined the namespaces of the container pid. -/
theorem startSshDaemon_stdin_before_namespaces_before_config :
    stepIdx HookStep.parseStateFromStdin < stepIdx HookStep.enterNamespaces ∧
    stepIdx HookStep.enterNamespaces < stepIdx HookStep.parseConfigJSONOfBundle := by
  decide

/-! ## Invalid container home: failure before overlay mount (C8) -/

/-- Observable side effects of hook steps relevant to overlay mounting and
daemon startup. -/
inductive HookEvent
  | overlayMount
  | daemonExec
deriving DecidableEq

/-- Abstract run environment for start-ssh-daemon: the home directory
recorded in the rootfs /etc/passwd for each uid (none when the uid has no
entry), and the target uid parsed from the bundle. -/
structure HookWorld where
  homeOf : Nat → Option String
  uid : Nat

/-- Modelled from the spec: sarus::common::PasswdDB::getHomeDirectory is
not under src/; per §4.C step 2 it finds the entry with matching UID and
extracts its home directory, a uid with no entry yielding an empty home
(which is then rejected together with the literal /nonexistent value). -/
def getHomeDirectory (w : HookWorld) : String :=
  (w.homeOf w.uid).getD ""

/-- The home-directory validity check of SshHook::getSshKeysDirInContainer
(SshHook.cpp lines 156-163): empty or /nonexistent homes are rejected. -/
def invalidHome (h : String) : Bool :=
  h = "" || h = "/nonexistent"

/-- Effect of a single startSshDaemon step: Except.error models
exit(EXIT_FAILURE); the list collects the observable events the step
emits. Only getSshKeysDirInContainer can exit (on an invalid home), only
setupSshKeysDirInContainer mounts the overlay, and only
startSshDaemonInContainer execs the daemon. -/
def runStep (w : HookWorld) : HookStep → Except Unit (List HookEvent)
  | HookStep.getSshKeysDirInContainer =>
      if invalidHome (getHomeDirectory w) then Except.error () else Except.ok []
  | HookStep.setupSshKeysDirInContainer => Except.ok [HookEvent.overlayMount]
  | HookStep.startSshDaemonInContainer => Except.ok [HookEvent.daemonExec]
  | _ => Except.ok []

/-- Outcome of a hook invocation: exit status zero or non-zero. -/
inductive HookOutcome
  | success
  | failureExit
deriving DecidableEq

/-- Run a list of steps in order, stopping with a non-zero exit as soon as
a step fails and collecting the events of the executed prefix. -/
def runHookSteps (w : HookWorld) : List HookStep → HookOutcome × List HookEvent
  | [] => (HookOutcome.success, [])
  | s :: rest =>
    match runStep w s with
    | Except.error _ => (HookOutcome.failureExit, [])
    | Except.ok evs =>
      let r := runHookSteps w rest
      (r.1, evs ++ r.2)

/-- The whole start-ssh-daemon invocation as a run of its step list. -/
def runStartSshDaemon (w : HookWorld) : HookOutcome × List HookEvent :=
  runHookSteps w startSshDaemonSteps

/-- C8: when the home recorded for uid in the rootfs /etc/passwd is absent,
empty or /nonexistent, start-ssh-daemon exits with a non-zero status and
no overlay mount is performed. -/
theorem invalid_home_fails_before_overlay_mount (w : HookWorld)
    (h : w.homeOf w.uid = none ∨ w.homeOf w.uid = some "" ∨
         w.homeOf w.uid = some "/nonexistent") :
    runStartSshDaemon w = (HookOutcome.failureExit, []) ∧
    HookEvent.overlayMount ∉ (runStartSshDaemon w).2 := by
  have hinv : invalidHome (getHomeDirectory w) = true := by
    rcases h with h | h | h <;> simp [invalidHome, getHomeDirectory, h]
  have hrun : runStartSshDaemon w = (HookOutcome.failureExit, []) := by
    simp [runStartSshDaemon, startSshDaemonSteps, runHookSteps, runStep, hinv]
  exact ⟨hrun, by rw [hrun]; simp⟩

/-- Witness for C8: a container passwd that records /nonexistent for
uid 1000. -/
theorem invalid_home_witness :
    runStartSshDaemon ⟨fun _ => some "/nonexistent", 1000⟩ =
      (HookOutcome.failureExit, []) ∧
    HookEvent.overlayMount ∉
      (runStartSshDaemon ⟨fun _ => some "/nonexistent", 1000⟩).2 :=
  invalid_home_fails_before_overlay_mount ⟨fun _ => some "/nonexistent", 1000⟩
    (Or.inr (Or.inr rfl))

/-! ## /etc/passwd patch pass (SshHook::patchPasswdIfNecessary, C2) -/

/-- Modelled from the spec: sarus::common::PasswdDB is not under src/.
Per §3 a PasswdEntry has the fields {username, uid, gid, gecos, home,
shell}; the shell field is optional (the patch pass in SshHook.cpp guards
on the optional userCommandInterpreter). Fields are kept as raw strings
since the spec demands byte-for-byte preservation across the rewrite. -/
structure PasswdEntry where
  username : String
  uid : String
  gid : String
  gecos : String
  home : String
  shell : Option String
deriving DecidableEq

/-- Modelled from the spec: serialisation of one passwd entry, stable
round-trip per §8, colon-separated fields with the optional shell last. -/
def serializeEntry (e : PasswdEntry) : String :=
  e.username ++ ":" ++ e.uid ++ ":" ++ e.gid ++ ":" ++ e.gecos ++ ":" ++ e.home ++
  (match e.shell with
   | none => ""
   | some s => ":" ++ s)

/-- Modelled from the spec: serialisation of the whole passwd file, one
line per entry in order, each terminated by a newline. -/
def serializePasswd (entries : List PasswdEntry) : String :=
  String.join (entries.map (fun e => serializeEntry e ++ "\n"))

/-- The patch of one entry in SshHook::patchPasswdIfNecessary
(SshHook.cpp lines 292-297): when the entry carries a shell and that
shell path does not exist under the rootfs, the shell becomes /bin/sh;
shellExists s models boost::filesystem::exists(rootfsDir / s). -/
def patchEntry (shellExists : String → Bool) (e : PasswdEntry) : PasswdEntry :=
  match e.shell with
  | some s => if shellExists s then e else { e with shell := some "/bin/sh" }
  | none => e

/-- SshHook::patchPasswdIfNecessary over the parsed entries: every entry
is patched in place, order preserved. -/
def patchPasswd (shellExists : String → Bool) (entries : List PasswdEntry) : List PasswdEntry :=
  entries.map (patchEntry shellExists)

/-- C2: the patch pass mutates only the shell field, and only when the
original shell does not exist under the rootfs, in which case the shell
becomes /bin/sh; entries whose shell exists are untouched, order is the
order of the map, and when every shell exists the serialised file is
byte-for-byte unchanged. -/
theorem patchPasswd_frame_and_identity (shellExists : String → Bool)
    (entries : List PasswdEntry) :
    (∀ e ∈ entries,
       (patchEntry shellExists e).username = e.username ∧
       (patchEntry shellExists e).uid = e.uid ∧
       (patchEntry shellExists e).gid = e.gid ∧
       (patchEntry shellExists e).gecos = e.gecos ∧
       (patchEntry shellExists e).home = e.home) ∧
    (∀ e ∈ entries, ∀ s, e.shell = some s → shellExists s = false →
       (patchEntry shellExists e).shell = some "/bin/sh") ∧
    (∀ e ∈ entries, (∀ s, e.shell = some s → shellExists s = true) →
       patchEntry shellExists e = e) ∧
    ((∀ e ∈ entries, ∀ s, e.shell = some s → shellExists s = true) →
       serializePasswd (patchPasswd shellExists entries) = serializePasswd entries) := by
  refine ⟨?_, ?_, ?_, ?_⟩
  · intro e _
    cases hs : e.shell with
    | none => simp [patchEntry, hs]
    | some s =>
      by_cases hex : shellExists s
      · simp [patchEntry, hs, hex]
      · simp [patchEntry, hs, hex]
  · intro e _ s hs hex
    simp [patchEntry, hs, hex]
  · intro e _ hall
    cases hs : e.shell with
    | none => simp [patchEntry, hs]
    | some s => simp [patchEntry, hs, hall s hs]
  · intro hall
    have hid : patchPasswd shellExists entries = entries := by
      unfold patchPasswd
      induction entries with
      | nil => rfl
      | cons a rest ih =>
        have ha : patchEntry shellExists a = a := by
          cases hs : a.shell with
          | none => simp [patchEntry, hs]
          | some s =>
            simp [patchEntry, hs, hall a (List.mem_cons_self a rest) s hs]
        have hrest := ih (fun e he s hs => hall e (List.mem_cons_of_mem a he) s hs)
        simp [ha, hrest]
    rw [hid]

/-- Witness for C2: a two-entry passwd whose shells all exist in the
rootfs is serialised unchanged. -/
theorem patchPasswd_witness :
    serializePasswd (patchPasswd (fun s => s = "/bin/bash" || s = "/bin/sh")
      [⟨"root", "0", "0", "root", "/root", some "/bin/bash"⟩,
       ⟨"alice", "1000", "1000", "", "/home/alice", some "/bin/sh"⟩]) =
    serializePasswd
      [⟨"root", "0", "0", "root", "/root", some "/bin/bash"⟩,
       ⟨"alice", "1000", "1000", "", "/home/alice", some "/bin/sh"⟩] :=
  (patchPasswd_frame_and_identity (fun s => s = "/bin/bash" || s = "/bin/sh")
    [⟨"root", "0", "0", "root", "/root", some "/bin/bash"⟩,
     ⟨"alice", "1000", "1000", "", "/home/alice", some "/bin/sh"⟩]).2.2.2
    (by decide)

/-! ## Files written into the rootfs (C6 ssh shim, C7 environment file) -/

/-- A file written by the hook: the sequence of lines streamed into it
(each C++ stream insertion terminated by std::endl) and its permission
mode. -/
structure FileArtifact where
  linesOut : List String
  mode : Nat
deriving DecidableEq

/-- The byte content of a written file: every streamed line followed by a
newline. -/
def fileContent (f : FileArtifact) : String :=
  String.join (f.linesOut.map (fun l => l ++ "\n"))

/-- Executable suffix test on the underlying character lists. -/
def strEndsWith (s suffix : String) : Bool :=
  List.isSuffixOf suffix.data s.data

/-- boost::filesystem permission bits used by SshHook.cpp. -/
def owner_all : Nat := 0o700
def owner_read : Nat := 0o400
def owner_write : Nat := 0o200
def group_read : Nat := 0o040
def group_exe : Nat := 0o010
def others_read : Nat := 0o004
def others_exe : Nat := 0o001

/-- The fixed dropbear directory inside the container (SshHook.cpp
line 83). -/
def dropbearRelativeDirInContainer : String := "/opt/oci-hooks/dropbear"

/-- SshHook::createSshExecutableInContainer (SshHook.cpp lines 267-285):
the file written to rootfs/usr/bin/ssh, a shebang line and the dbclient
invocation line, with mode owner_all, group read and exe, others read and
exe. -/
def sshShimFile (serverPort : Nat) : FileArtifact :=
  { linesOut := ["#!/bin/sh",
      dropbearRelativeDirInContainer ++ "/bin/dbclient -y -p " ++
        toString serverPort ++ " $*"],
    mode := owner_all ||| group_read ||| group_exe ||| others_read ||| others_exe }

/-- C6 counterexample: for SERVER_PORT=2222 the second line of the shim is
the dbclient invocation terminated by the unquoted $*, so it does not end
with the claimed -p 2222 "$@". -/
theorem sshShim_uses_star_not_quoted_at :
    (sshShimFile 2222).linesOut.get? 1 =
      some "/opt/oci-hooks/dropbear/bin/dbclient -y -p 2222 $*" ∧
    strEndsWith "/opt/oci-hooks/dropbear/bin/dbclient -y -p 2222 $*"
      "-p 2222 \"$@\"" = false := by
  refine ⟨by decide, by decide⟩

/-- C6 amended: the shim written to rootfs/usr/bin/ssh is a two-line
script with mode 0755 whose second line invokes dbclient with -y, -p and
the configured port, forwarding the caller arguments with the unquoted $*
rather than "$@"; for SERVER_PORT=2222 the line ends with -p 2222 $*. -/
theorem sshShim_content_and_mode :
    (sshShimFile 2222).mode = 0o755 ∧
    (sshShimFile 2222).linesOut =
      ["#!/bin/sh", "/opt/oci-hooks/dropbear/bin/dbclient -y -p 2222 $*"] ∧
    (sshShimFile 2222).linesOut.length = 2 ∧
    strEndsWith "/opt/oci-hooks/dropbear/bin/dbclient -y -p 2222 $*"
      "-p 2222 $*" = true ∧
    fileContent (sshShimFile 2222) =
      "#!/bin/sh\n/opt/oci-hooks/dropbear/bin/dbclient -y -p 2222 $*\n" := by
  refine ⟨by decide, by decide, by decide, by decide, by decide⟩

/-- One export line of the environment file including its terminating
newline, as streamed by SshHook::createEnvironmentFile. -/
def envLine (kv : String × String) : String :=
  "export " ++ kv.1 ++ "=\"" ++ kv.2 ++ "\"\n"

/-- SshHook::createEnvironmentFile (SshHook.cpp lines 303-324): the file
starts with the shebang line and has one export line per environment pair
of the bundle, the value inserted literally between the double quotes;
permissions are owner_all, group read, others read. -/
def environmentFile (env : List (String × String)) : FileArtifact :=
  { linesOut := "#!/bin/sh" ::
      env.map (fun kv => "export " ++ kv.1 ++ "=\"" ++ kv.2 ++ "\""),
    mode := owner_all ||| group_read ||| others_read }

lemma string_join_cons (a : String) (l : List String) :
    String.join (a :: l) = a ++ String.join l := by
  apply String.ext
  simp [String.join_eq]

/-- C7 counterexample: the environment file is written with permissions
owner_all | group_read | others_read, that is mode 0744, not the claimed
0755. -/
theorem environmentFile_mode_not_0755 :
    (environmentFile []).mode = 0o744 ∧ (environmentFile []).mode ≠ 0o755 := by
  refine ⟨by decide, by decide⟩

/-- C7 amended: the environment file consists of the shebang line followed
by one export K="V" line per pair of the bundle process.env, the value
inserted literally without unescaping; an empty process.env yields only
the shebang line; the mode is 0744 (owner rwx, group and others read),
not 0755. -/
theorem environmentFile_content_and_mode (env : List (String × String)) :
    (environmentFile env).mode = 0o744 ∧
    fileContent (environmentFile env) =
      "#!/bin/sh\n" ++ String.join (env.map envLine) ∧
    fileContent (environmentFile []) = "#!/bin/sh\n" := by
  refine ⟨rfl, ?_, by decide⟩
  unfold fileContent environmentFile
  simp only [List.map_cons, string_join_cons, List.map_map]
  congr 1
  apply congrArg
  apply List.map_congr_left
  intro kv _
  simp [envLine, Function.comp, String.append_assoc]

/-! ## generate-ssh-keys and the keystore invariant (C5) -/

/-- Presence of the three expected files in the host keystore directory. -/
structure KeyStore where
  hostKey : Bool
  userKey : Bool
  authKeys : Bool
deriving DecidableEq

/-- SshHook::userHasSshKeys (SshHook.cpp lines 129-141): all three
expected key files exist. -/
def userHasSshKeys (ks : KeyStore) : Bool :=
  ks.hostKey && ks.userKey && ks.authKeys

/-- Success or failure of the external steps of the generation protocol:
the two dropbearkey invocations and the authorized_keys derivation
(parsing the ecdsa line from the public-key print). -/
structure KeygenOracle where
  keygenHost : Bool
  keygenUser : Bool
  authOk : Bool
deriving DecidableEq

/-- Final state of a terminating generate-ssh-keys run: whether the run
returned successfully and the keystore content afterwards. -/
structure GenOutcome where
  success : Bool
  store : KeyStore
deriving DecidableEq

/-- SshHook::generateSshKeys (SshHook.cpp lines 34-62): if all three files
exist and overwrite is not requested the run returns with the store
untouched; otherwise the directory is deleted and recreated empty, the
host key is generated, then the user key, then authorized_keys, each
failing subprocess terminating the run with the files written so far. -/
def generateSshKeys (overwrite : Bool) (oracle : KeygenOracle) (ks : KeyStore) : GenOutcome :=
  if userHasSshKeys ks && !overwrite then
    { success := true, store := ks }
  else
    let ks1 : KeyStore := { hostKey := false, userKey := false, authKeys := false }
    if !oracle.keygenHost then
      { success := false, store := ks1 }
    else
      let ks2 : KeyStore := { ks1 with hostKey := true }
      if !oracle.keygenUser then
        { success := false, store := ks2 }
      else
        let ks3 : KeyStore := { ks2 with userKey := true }
        if !oracle.authOk then
          { success := false, store := ks3 }
        else
          { success := true, store := { ks3 with authKeys := true } }

/-- C5 counterexample: starting from an empty keystore, a run in which the
host-key generation succeeds but the id_dropbear generation fails
terminates (with failure) leaving exactly one of the three files, neither
all of them nor none of them. -/
theorem generateSshKeys_partial_on_failure :
    generateSshKeys false { keygenHost := true, keygenUser := false, authOk := true }
        { hostKey := false, userKey := false, authKeys := false } =
      { success := false,
        store := { hostKey := true, userKey := false, authKeys := false } } ∧
    ¬ (userHasSshKeys { hostKey := true, userKey := false, authKeys := false } = true ∨
       ({ hostKey := true, userKey := false, authKeys := false } : KeyStore) =
         { hostKey := false, userKey := false, authKeys := false }) := by
  refine ⟨by decide, by decide⟩

/-- C5 amended: after every run of generate-ssh-keys that returns
successfully the keystore contains all three of dropbear_ecdsa_host_key,
id_dropbear and authorized_keys; a run that fails may leave a proper
subset of them. -/
theorem generateSshKeys_success_all_keys (overwrite : Bool)
    (oracle : KeygenOracle) (ks : KeyStore)
    (h : (generateSshKeys overwrite oracle ks).success = true) :
    userHasSshKeys (generateSshKeys overwrite oracle ks).store = true := by
  unfold generateSshKeys at h ⊢
  by_cases h0 : userHasSshKeys ks && !overwrite
  · rw [if_pos h0] at h ⊢
    have h0p : userHasSshKeys ks = true ∧ (!overwrite) = true := by
      simpa using h0
    exact h0p.1
  · rw [if_neg h0] at h ⊢
    by_cases h1 : !oracle.keygenHost
    · rw [if_pos h1] at h; cases h
    · rw [if_neg h1] at h ⊢
      by_cases h2 : !oracle.keygenUser
      · rw [if_pos h2] at h; cases h
      · rw [if_neg h2] at h ⊢
        by_cases h3 : !oracle.authOk
        · rw [if_pos h3] at h; cases h
        · rw [if_neg h3] at h ⊢
          decide

/-- Witness for the amended C5 theorem: a fully successful cold-start run
leaves all three files. -/
theorem generateSshKeys_success_witness :
    userHasSshKeys
      (generateSshKeys false { keygenHost := true, keygenUser := true, authOk := true }
        { hostKey := false, userKey := false, authKeys := false }).store = true :=
  generateSshKeys_success_all_keys false
    { keygenHost := true, keygenUser := true, authOk := true }
    { hostKey := false, userKey := false, authKeys := false } (by decide)

/-! ## Daemon pre-exec sequence (SshHook::startSshDaemonInContainer, C1) -/

/-- Result of one prctl(PR_CAPBSET_DROP, idx) call: success, EINVAL (idx
beyond the last valid capability) or another errno. -/
inductive DropRes
  | ok
  | einval
  | err (code : Nat)
deriving DecidableEq

/-- Process credentials and flags manipulated by the pre-exec code. -/
structure ProcState where
  rootDir : String
  bounding : List Nat
  supplementaryGroups : List Nat
  rgid : Nat
  egid : Nat
  sgid : Nat
  ruid : Nat
  euid : Nat
  suid : Nat
  noNewPrivs : Bool
deriving DecidableEq

/-- The syscalls issued by the pre-exec code, in issue order. -/
inductive PreExecEvent
  | chrootTo (dir : String)
  | capDrop (idx : Nat)
  | setgroupsEmpty
  | setresgidTo (g : Nat)
  | setresuidTo (u : Nat)
  | setNoNewPrivs
deriving DecidableEq

/-- The kernel of the claim: dropping capability index i succeeds exactly
for the valid indices 0..capMax-1 and reports EINVAL beyond them. -/
def stdKernel (capMax : Nat) : Nat → DropRes :=
  fun i => if i < capMax then DropRes.ok else DropRes.einval

/-- The capability-drop loop of SshHook.cpp lines 359-370: iterate
capability indices from i upwards, dropping each from the bounding set,
stopping at EINVAL, any other failure being fatal. The fuel argument is a
model artifact bounding the iteration; the theorems supply enough fuel. -/
def capDropLoop (kern : Nat → DropRes) : Nat → Nat → ProcState → Except String (ProcState × List PreExecEvent)
  | 0, _, _ => Except.error "model fuel exhausted"
  | fuel + 1, i, s =>
    match kern i with
    | DropRes.ok =>
      match capDropLoop kern fuel (i + 1)
          { s with bounding := s.bounding.filter (fun j => !decide (j = i)) } with
      | Except.error e => Except.error e
      | Except.ok (s2, evs) => Except.ok (s2, PreExecEvent.capDrop i :: evs)
    | DropRes.einval => Except.ok (s, [])
    | DropRes.err _ => Except.error "Failed to prctl(PR_CAPBSET_DROP)"

/-- The pre-exec sequence of SshHook::startSshDaemonInContainer
(SshHook.cpp lines 349-395) run in the forked child before exec of
Dropbear: chroot into the rootfs, drop the whole capability bounding set,
clear supplementary groups, set real/effective/saved gid, then uid, then
the no_new_privs flag. Returns the final process state and the ordered
trace of issued syscalls, or an error when a syscall other than the
terminating EINVAL fails. -/
def preExecActions (kern : Nat → DropRes) (fuel : Nat) (rootfsDir : String)
    (uidOfUser gidOfUser : Nat) (s : ProcState) : Except String (ProcState × List PreExecEvent) :=
  let s1 := { s with rootDir := rootfsDir }
  match capDropLoop kern fuel 0 s1 with
  | Except.error e => Except.error e
  | Except.ok (s2, evs) =>
    let s3 := { s2 with supplementaryGroups := ([] : List Nat) }
    let s4 := { s3 with rgid := gidOfUser, egid := gidOfUser, sgid := gidOfUser }
    let s5 := { s4 with ruid := uidOfUser, euid := uidOfUser, suid := uidOfUser }
    let s6 := { s5 with noNewPrivs := true }
    Except.ok (s6,
      PreExecEvent.chrootTo rootfsDir :: evs ++
        [PreExecEvent.setgroupsEmpty, PreExecEvent.setresgidTo gidOfUser,
         PreExecEvent.setresuidTo uidOfUser, PreExecEvent.setNoNewPrivs])

lemma capDropLoop_std (capMax : Nat) :
    ∀ (fuel i : Nat) (s : ProcState), capMax - i < fuel →
      capDropLoop (stdKernel capMax) fuel i s =
        Except.ok
          ({ s with bounding :=
              s.bounding.filter (fun j => !decide (i ≤ j ∧ j < capMax)) },
           (List.range' i (capMax - i)).map PreExecEvent.capDrop) := by
  intro fuel
  induction fuel with
  | zero => intro i s h; omega
  | succ fuel ih =>
    intro i s h
    by_cases hi : i < capMax
    · have hkern : stdKernel capMax i = DropRes.ok := by
        simp [stdKernel, hi]
      have hfuel2 : capMax - (i + 1) < fuel := by omega
      have hfl : (s.bounding.filter (fun j => !decide (j = i))).filter
            (fun j => !decide (i + 1 ≤ j ∧ j < capMax)) =
          s.bounding.filter (fun j => !decide (i ≤ j ∧ j < capMax)) := by
        rw [List.filter_filter]
        apply List.filter_congr
        intro j _
        by_cases hj : i ≤ j ∧ j < capMax
        · by_cases hji : j = i
          · simp [hji, hj, hi]
          · have hj1 : i + 1 ≤ j ∧ j < capMax := by omega
            simp [hj1, hji, hj]
        · have h1 : ¬(i + 1 ≤ j ∧ j < capMax) := by omega
          have h2 : ¬(j = i) := by omega
          simp [h1, h2, hj]
      have hrange : capMax - i = (capMax - (i + 1)) + 1 := by omega
      simp only [capDropLoop, hkern]
      rw [ih (i + 1) _ hfuel2]
      simp only [hfl, hrange, List.range'_succ, List.map_cons]
    · have hkern : stdKernel capMax i = DropRes.einval := by
        simp [stdKernel, hi]
      have hrange : capMax - i = 0 := by omega
      have hfl : s.bounding.filter (fun j => !decide (i ≤ j ∧ j < capMax)) = s.bounding := by
        apply List.filter_eq_self.mpr
        intro j _
        have hj : ¬(i ≤ j ∧ j < capMax) := by omega
        simp [hj]
      simp only [capDropLoop, hkern, hrange]
      rw [hfl]
      rfl

lemma capDropLoop_err (kern : Nat → DropRes) (j code : Nat)
    (hj : kern j = DropRes.err code) (hok : ∀ i < j, kern i = DropRes.ok) :
    ∀ (fuel i : Nat) (s : ProcState), i ≤ j → j - i < fuel →
      capDropLoop kern fuel i s =
        Except.error "Failed to prctl(PR_CAPBSET_DROP)" := by
  intro fuel
  induction fuel with
  | zero => intro i s hij hf; omega
  | succ fuel ih =>
    intro i s hij hf
    by_cases hi : i = j
    · subst hi
      simp only [capDropLoop, hj]
    · have hilt : i < j := by omega
      have hker : kern i = DropRes.ok := hok i hilt
      simp only [capDropLoop, hker]
      rw [ih (i + 1) _ (by omega) (by omega)]

/-- C1: in the forked child of start-ssh-daemon, the pre-exec code runs
exactly in the order chroot into the rootfs, capability-bounding-set drop
for indices 0,1,... until the kernel reports EINVAL, clearing of
supplementary groups, setresgid to the target gid, setresuid to the
target uid, and setting no_new_privs — so that Dropbear starts with
EUID = uid, EGID = gid, empty supplementary groups, empty capability
bounding set and no_new_privs set; and a capability-drop failure other
than EINVAL aborts the sequence with an error. -/
theorem startSshDaemonInContainer_preExec_order_and_effect
    (capMax fuel uidOfUser gidOfUser : Nat) (rootfsDir : String) (s : ProcState)
    (hfuel : capMax < fuel)
    (hb : ∀ j ∈ s.bounding, j < capMax) :
    preExecActions (stdKernel capMax) fuel rootfsDir uidOfUser gidOfUser s =
      Except.ok
        ({ rootDir := rootfsDir, bounding := [], supplementaryGroups := [],
           rgid := gidOfUser, egid := gidOfUser, sgid := gidOfUser,
           ruid := uidOfUser, euid := uidOfUser, suid := uidOfUser,
           noNewPrivs := true },
         PreExecEvent.chrootTo rootfsDir ::
           ((List.range capMax).map PreExecEvent.capDrop ++
            [PreExecEvent.setgroupsEmpty, PreExecEvent.setresgidTo gidOfUser,
             PreExecEvent.setresuidTo uidOfUser, PreExecEvent.setNoNewPrivs])) ∧
    (∀ (code j : Nat), j < capMax →
      preExecActions (fun i => if i = j then DropRes.err code else stdKernel capMax i)
        fuel rootfsDir uidOfUser gidOfUser s =
        Except.error "Failed to prctl(PR_CAPBSET_DROP)") := by
  constructor
  · have hloop := capDropLoop_std capMax fuel 0 { s with rootDir := rootfsDir } (by omega)
    have hempty : List.filter (fun j => !decide (0 ≤ j ∧ j < capMax))
        ({ s with rootDir := rootfsDir } : ProcState).bounding = [] := by
      apply List.filter_eq_nil_iff.mpr
      intro j hjmem
      have hjlt : j < capMax := hb j hjmem
      simp [hjlt]
    rw [hempty] at hloop
    simp only [preExecActions, hloop, Nat.sub_zero, ← List.range_eq_range']
    rfl
  · intro code j hjcap
    have hloop := capDropLoop_err
      (fun i => if i = j then DropRes.err code else stdKernel capMax i)
      j code (by simp)
      (fun i hilt => by
        have hne : i ≠ j := Nat.ne_of_lt hilt
        have hlt : i < capMax := Nat.lt_trans hilt hjcap
        simp [hne, stdKernel, hlt])
      fuel 0 { s with rootDir := rootfsDir } (by omega) (by omega)
    simp only [preExecActions, hloop]

/-- Witness for C1 at a concrete input: three valid capabilities, all held
initially, target uid 1000 and gid 100. -/
theorem startSshDaemonInContainer_preExec_witness :
    preExecActions (stdKernel 3) 5 "/rootfs" 1000 100
        { rootDir := "/", bounding := [0, 1, 2], supplementaryGroups := [7],
          rgid := 0, egid := 0, sgid := 0, ruid := 0, euid := 0, suid := 0,
          noNewPrivs := false } =
      Except.ok
        ({ rootDir := "/rootfs", bounding := [], supplementaryGroups := [],
           rgid := 100, egid := 100, sgid := 100,
           ruid := 1000, euid := 1000, suid := 1000, noNewPrivs := true },
         PreExecEvent.chrootTo "/rootfs" ::
           ((List.range 3).map PreExecEvent.capDrop ++
            [PreExecEvent.setgroupsEmpty, PreExecEvent.setresgidTo 100,
             PreExecEvent.setresuidTo 1000, PreExecEvent.setNoNewPrivs])) :=
  (startSshDaemonInContainer_preExec_order_and_effect 3 5 1000 100 "/rootfs"
    { rootDir := "/", bounding := [0, 1, 2], supplementaryGroups := [7],
      rgid := 0, egid := 0, sgid := 0, ruid := 0, euid := 0, suid := 0,
      noNewPrivs := false } (by omega) (by decide)).1
